import Mathlib

/-!
Verification development for the chart-capture pipeline
(`src/DataBase/DB_generator.py`).

The Python source drives a headless browser (Playwright).  Here the browser
is a pure oracle: every collaborator operation that can raise is modelled as
an `Except String` value describing whether that operation succeeds or
raises, and the pipeline functions are translated statement by statement
from the source.  Box dimensions (floats in the source) are modelled in
the ordered ring `ℤ`, since the scan only multiplies and compares them;
wall-clock timing (`elapsed_seconds`) is not modelled.
-/

deriving instance DecidableEq for Except

namespace ChartsDB

/-- A bounding box as returned by `el.bounding_box()`: width and height in
layout pixels.  The source receives floats; the scan only multiplies and
compares them, so the dimensions are modelled in the ordered ring `ℤ`. -/
structure Box where
  width : ℤ
  height : ℤ
deriving DecidableEq, Repr

/-- One `<svg>` element of the rendered page, seen through the browser
collaborator.  Each field models one operation of the source on that
element; `.error e` means the operation raises exception `e`:
`boundingBox` is `el.bounding_box()` (`none` = no box / not rendered),
`ariaLabel` is `get_attribute("aria-label")`, `titleChild` is
`locator("title").first` + `inner_text` (`none` = `count() == 0`),
`descChild` likewise for `desc`, `altAttr` is `get_attribute("alt")`,
and `scrollShot` is `scroll_into_view_if_needed()` + `screenshot(...)`. -/
structure SvgElem where
  boundingBox : Except String (Option Box)
  ariaLabel : Except String (Option String)
  titleChild : Except String (Option String)
  descChild : Except String (Option String)
  altAttr : Except String (Option String)
  scrollShot : Except String Unit
deriving DecidableEq, Repr

/-- The behaviour of one browser page session for one URL:
`gotoNetworkidle` is `page.goto(url, wait_until="networkidle")`,
`gotoDomcontent` is the retry `page.goto(url, wait_until="domcontentloaded")`,
`htmlSave` is `page.content()` + `html_path.write_text(...)`,
`svgs` is the document-order result of `page.locator("svg")`, and
`fullpageShot` is `page.screenshot(full_page=True)`. -/
structure PageOracle where
  gotoNetworkidle : Except String Unit
  gotoDomcontent : Except String Unit
  htmlSave : Except String Unit
  svgs : List SvgElem
  fullpageShot : Except String Unit
deriving Repr

/-- The Outcome Record built by `render_url` / `run_pipeline` (the
`result` dict of the source).  `elapsed_seconds` (wall clock) is the one
field not modelled. -/
structure Record where
  url : String
  status : String
  error : String
  has_svg : Bool
  has_alt : Bool
  alt_text : String
  image_path : String
  html_path : String
deriving DecidableEq, Repr

/-- Python's `re.sub(r"https?://", "", url)`: a single left-to-right
non-overlapping pass deleting every match of `https?://`; text before a
match is never rescanned, which this recursion reproduces exactly. -/
def stripSchemes : List Char → List Char
  | 'h' :: 't' :: 't' :: 'p' :: 's' :: ':' :: '/' :: '/' :: rest => stripSchemes rest
  | 'h' :: 't' :: 't' :: 'p' :: ':' :: '/' :: '/' :: rest => stripSchemes rest
  | c :: cs => c :: stripSchemes cs
  | [] => []

/-- Python's `\w` character class (`str` patterns are Unicode-aware):
ASCII alphanumerics and underscore, plus Unicode letters.  The Unicode
part is modelled on the Latin-1 Supplement and Latin Extended-A/B range
(U+00C0..U+024F, all letters except `×` U+00D7 and `÷` U+00F7), which is
the only non-ASCII range exercised by this development. -/
def pyWordChar (c : Char) : Bool :=
  c.isAlphanum || c = '_' ||
    (0xC0 ≤ c.toNat && c.toNat ≤ 0x24F && c.toNat ≠ 0xD7 && c.toNat ≠ 0xF7)

/-- Function `slugify` from the source: delete every `https?://` match, replace each
character matching `[^\w\-]` by `_`, truncate to 80 characters. -/
def slugify (url : String) : String :=
  ⟨((stripSchemes url.data).map
      (fun c => if pyWordChar c || c = '-' then c else '_')).take 80⟩

/-- Python's `str.strip()`: drop leading and trailing whitespace.  Written
over the character list so that it reduces inside the kernel
(`String.trim` does not); `Char.isWhitespace` covers the blank characters
exercised here. -/
def pyStrip (s : String) : String :=
  ⟨((s.data.dropWhile Char.isWhitespace).reverse.dropWhile Char.isWhitespace).reverse⟩

/-- Step 4 of `extract_alt_from_svg`: `get_attribute("alt") or ""`,
then `.strip()` of the result is returned unconditionally. -/
def extract_alt_attr (el : SvgElem) : Except String String :=
  match el.altAttr with
  | .error e => .error e
  | .ok altOpt => .ok (pyStrip (altOpt.getD ""))

/-- Step 3 of `extract_alt_from_svg`: the first `desc` child, if present
and with non-blank `inner_text`, wins; otherwise fall through to the
`alt` attribute. -/
def extract_desc (el : SvgElem) : Except String String :=
  match el.descChild with
  | .error e => .error e
  | .ok (some d) => if pyStrip d ≠ "" then .ok (pyStrip d) else extract_alt_attr el
  | .ok none => extract_alt_attr el

/-- Steps 1-2 of `extract_alt_from_svg`: the `aria-label` attribute, then
the first `title` child, then fall through to `extract_desc`. -/
def extract_core (el : SvgElem) : Except String String :=
  match el.ariaLabel with
  | .error e => .error e
  | .ok ariaOpt =>
    if pyStrip (ariaOpt.getD "") ≠ "" then .ok (pyStrip (ariaOpt.getD ""))
    else
      match el.titleChild with
      | .error e => .error e
      | .ok (some t) => if pyStrip t ≠ "" then .ok (pyStrip t) else extract_desc el
      | .ok none => extract_desc el

/-- Function `extract_alt_from_svg` from the source: the whole four-step chain runs
inside one `try`, and `except Exception: return ""` turns any raise from
any step into the empty string. -/
def extract_alt_from_svg (el : SvgElem) : String :=
  match extract_core el with
  | .ok s => s
  | .error _ => ""

/-- Area of a bounding box: `box["width"] * box["height"]`. -/
def area (b : Box) : ℤ := b.width * b.height

/-- The SVG scan loop of `render_url` (lines 134-144): walk the elements
in document order keeping the element with the strictly largest positive
area; `largest_area` starts at `0`.  A raising `bounding_box()` call is
not caught anywhere in `render_url`, so it propagates as `.error`. -/
def scanLargest : List SvgElem → Option SvgElem → ℤ → Except String (Option SvgElem)
  | [], acc, _ => .ok acc
  | el :: rest, acc, best =>
    match el.boundingBox with
    | .error e => .error e
    | .ok none => scanLargest rest acc best
    | .ok (some b) =>
      if best < area b then scanLargest rest (some el) (area b)
      else scanLargest rest acc best

/-- The same scan loop with the raise-free behaviour projected out: used
to state what `scanLargest` computes when no bounding-box query raises. -/
def pureScan : List SvgElem → Option SvgElem → ℤ → Option SvgElem
  | [], acc, _ => acc
  | el :: rest, acc, best =>
    match el.boundingBox with
    | .ok (some b) =>
      if best < area b then pureScan rest (some el) (area b)
      else pureScan rest acc best
    | _ => pureScan rest acc best

/-- The body of `render_url` after a successful navigation (lines 115-180):
HTML capture (failure appended to `error`), SVG detection, largest-SVG
selection, label extraction, element screenshot with full-page fallback.
The fallback `page.screenshot` on lines 162 and 167 is not inside any
`try`, so its failure propagates as `.error`; the one on line 173 is
inside a `try` and is appended to `error`. -/
def render_after_nav (url imagesDir htmlDir : String) (page : PageOracle) :
    Except String Record :=
  let slug := slugify url
  let r0 : Record :=
    { url := url, status := "ok", error := "", has_svg := false,
      has_alt := false, alt_text := "", image_path := "", html_path := "" }
  let r1 : Record :=
    match page.htmlSave with
    | .ok _ => { r0 with html_path := htmlDir ++ "/" ++ slug ++ ".html" }
    | .error e => { r0 with error := r0.error ++ " | html error: " ++ e }
  if 0 < page.svgs.length then
    let r2 := { r1 with has_svg := true }
    match scanLargest page.svgs none 0 with
    | .error e => .error e
    | .ok (some el) =>
      let alt := extract_alt_from_svg el
      let r3 := { r2 with alt_text := alt, has_alt := decide (alt ≠ "") }
      match el.scrollShot with
      | .ok _ => .ok { r3 with image_path := imagesDir ++ "/" ++ slug ++ "_chart.png" }
      | .error e =>
        let r4 := { r3 with error := r3.error ++ " | svg screenshot error: " ++ e }
        match page.fullpageShot with
        | .ok _ => .ok { r4 with image_path := imagesDir ++ "/" ++ slug ++ "_fullpage.png" }
        | .error e2 => .error e2
    | .ok none =>
      match page.fullpageShot with
      | .ok _ => .ok { r2 with image_path := imagesDir ++ "/" ++ slug ++ "_fullpage.png" }
      | .error e2 => .error e2
  else
    match page.fullpageShot with
    | .ok _ => .ok { r1 with image_path := imagesDir ++ "/" ++ slug ++ "_fullpage.png" }
    | .error e => .ok { r1 with error := r1.error ++ " | fullpage screenshot error: " ++ e }

/-- The record `render_url` returns when both navigations raise
(lines 110-113 of the source). -/
def gotoFailRecord (url e2 : String) : Record :=
  { url := url, status := "error", error := "goto failed: " ++ e2,
    has_svg := false, has_alt := false, alt_text := "",
    image_path := "", html_path := "" }

/-- Function `render_url` from the source.  Navigation: `networkidle` first; on
raise, retry with `domcontentloaded`; on a second raise return the
`status="error"` record with message `goto failed: <e>` (no further step
runs).  An `.error` result models an exception escaping `render_url`
itself. -/
def render_url (url imagesDir htmlDir : String) (page : PageOracle) :
    Except String Record :=
  match page.gotoNetworkidle with
  | .ok _ => render_after_nav url imagesDir htmlDir page
  | .error _ =>
    match page.gotoDomcontent with
    | .ok _ => render_after_nav url imagesDir htmlDir page
    | .error e2 => .ok (gotoFailRecord url e2)

/-- The synthetic record `run_pipeline` builds when an exception escapes
`render_url` (lines 236-241 of the source). -/
def syntheticRecord (url e : String) : Record :=
  { url := url, status := "error", error := e, has_svg := false,
    has_alt := false, alt_text := "", image_path := "", html_path := "" }

/-- The body of the `try`/`except` around `render_url` in `run_pipeline`
(lines 234-241): an exception escaping `render_url` becomes a synthetic
`status="error"` record. -/
def processRow (imagesDir htmlDir : String) (oracle : String → PageOracle)
    (url : String) : Record :=
  match render_url url imagesDir htmlDir (oracle url) with
  | .ok r => r
  | .error e => syntheticRecord url e

/-- The per-row loop of `run_pipeline` (lines 222-252): strip the cell,
skip blanks, skip URLs in `processed_urls` (a set computed once from the
prior ledger and never extended during the run), otherwise invoke the
Capture Engine and append the record.  Returns the appended records and
the list of URLs for which `render_url` was invoked. -/
def run_pipeline_core (imagesDir htmlDir : String) (oracle : String → PageOracle)
    (processed : List String) : List String → List Record × List String
  | [] => ([], [])
  | row :: rest =>
    let url := pyStrip row
    if url = "" then run_pipeline_core imagesDir htmlDir oracle processed rest
    else if url ∈ processed then run_pipeline_core imagesDir htmlDir oracle processed rest
    else
      let r := processRow imagesDir htmlDir oracle url
      let p := run_pipeline_core imagesDir htmlDir oracle processed rest
      (r :: p.1, url :: p.2)

/-- Function `run_pipeline` from the source, over its observable state: `rows` are
the raw URL cells of the input CSV, `prior` is the ledger loaded from
`results.json`.  Returns the final ledger (`all_results`) together with
the URLs on which the Capture Engine was invoked. -/
def run_pipeline (rows : List String) (prior : List Record)
    (imagesDir htmlDir : String) (oracle : String → PageOracle) :
    List Record × List String :=
  let processed := prior.map Record.url
  let p := run_pipeline_core imagesDir htmlDir oracle processed rows
  (prior ++ p.1, p.2)

/-- No element of `l` owns a box whose area exceeds `best`. -/
def noBeat (l : List SvgElem) (best : ℤ) : Prop :=
  ∀ el ∈ l, ∀ b, el.boundingBox = .ok (some b) → area b ≤ best

/-- Predicate: `el` splits `l` as `pre ++ el :: post`, owns a box of area strictly
above `best`, strictly above every boxed area in `pre` (document-order
priority on ties) and at least every boxed area in `post`. -/
def Beats (l : List SvgElem) (best : ℤ) (el : SvgElem) : Prop :=
  ∃ pre b post, l = pre ++ el :: post ∧ el.boundingBox = .ok (some b) ∧
    best < area b ∧
    (∀ el' ∈ pre, ∀ b', el'.boundingBox = .ok (some b') → area b' < area b) ∧
    (∀ el' ∈ post, ∀ b', el'.boundingBox = .ok (some b') → area b' ≤ area b)

/-- First non-empty string of a list, or `""`: the shape of the label
priority chain as the spec words it. -/
def chainFirst (l : List String) : String :=
  (l.filter (fun s => decide (s ≠ ""))).headD ""

/-- The input cells that `run_pipeline` actually processes: stripped,
non-blank, and not in the already-recorded URL set. -/
def qualifying (processed : List String) (rows : List String) : List String :=
  (rows.map pyStrip).filter (fun u => decide (u ≠ "") && decide (u ∉ processed))

theorem render_after_nav_ok {u i h : String} {p : PageOracle} {r : Record}
    (hr : render_after_nav u i h p = .ok r) : r.status = "ok" ∧ r.url = u := by
  unfold render_after_nav at hr
  repeat' split at hr
  all_goals simp_all
  all_goals (obtain rfl := hr; exact ⟨rfl, rfl⟩)

theorem render_url_ok_url {u i h : String} {p : PageOracle} {r : Record}
    (hr : render_url u i h p = .ok r) : r.url = u := by
  unfold render_url at hr
  repeat' split at hr
  all_goals first
    | exact (render_after_nav_ok hr).2
    | (obtain rfl := Except.ok.inj hr; rfl)

theorem render_url_error_shape {u i h : String} {p : PageOracle} {r : Record}
    (hr : render_url u i h p = .ok r) (hs : r.status = "error") :
    ∃ e1 e2, p.gotoNetworkidle = .error e1 ∧ p.gotoDomcontent = .error e2 ∧
      r = gotoFailRecord u e2 := by
  unfold render_url at hr
  split at hr
  · exact absurd hs (by simp [(render_after_nav_ok hr).1])
  case _ e1 heq1 =>
    split at hr
    · exact absurd hs (by simp [(render_after_nav_ok hr).1])
    case _ e2 heq2 =>
      exact ⟨e1, e2, heq1, heq2, by obtain rfl := Except.ok.inj hr; rfl⟩

theorem scanLargest_eq_pure {l : List SvgElem}
    (hok : ∀ el ∈ l, ∃ ob, el.boundingBox = .ok ob) :
    ∀ acc best, scanLargest l acc best = .ok (pureScan l acc best) := by
  induction l with
  | nil => intro acc best; rfl
  | cons el rest ih =>
    intro acc best
    obtain ⟨ob, hob⟩ := hok el (by simp)
    have hrest : ∀ el' ∈ rest, ∃ ob, el'.boundingBox = .ok ob :=
      fun el' h' => hok el' (by simp [h'])
    cases ob with
    | none =>
      simp only [scanLargest, pureScan, hob]
      exact ih hrest acc best
    | some b =>
      simp only [scanLargest, pureScan, hob]
      by_cases hlt : best < area b
      · rw [if_pos hlt, if_pos hlt]; exact ih hrest _ _
      · rw [if_neg hlt, if_neg hlt]; exact ih hrest _ _

theorem pureScan_acc_isSome {l : List SvgElem} :
    ∀ (a : SvgElem) (best : ℤ), ∃ el, pureScan l (some a) best = some el := by
  induction l with
  | nil => exact fun a _ => ⟨a, rfl⟩
  | cons e rest ih =>
    intro a best
    simp only [pureScan]
    cases hbb : e.boundingBox with
    | error e' => exact ih a best
    | ok ob =>
      cases ob with
      | none => exact ih a best
      | some b =>
        by_cases hlt : best < area b
        · simpa [hlt] using ih e (area b)
        · simpa [hlt] using ih a best

theorem pureScan_none_of_noBeat {l : List SvgElem} :
    ∀ best, noBeat l best → pureScan l none best = none := by
  induction l with
  | nil => intro best _; rfl
  | cons e rest ih =>
    intro best hnb
    have hrest : noBeat rest best := fun el' h' => hnb el' (by simp [h'])
    simp only [pureScan]
    cases hbb : e.boundingBox with
    | error e' => exact ih best hrest
    | ok ob =>
      cases ob with
      | none => exact ih best hrest
      | some b =>
        have hle : area b ≤ best := hnb e (by simp) b hbb
        simp [not_lt.mpr hle]
        exact ih best hrest

theorem noBeat_of_pureScan_none {l : List SvgElem} :
    ∀ best, pureScan l none best = none → noBeat l best := by
  induction l with
  | nil => intro best _ el hel; simp at hel
  | cons e rest ih =>
    intro best hp
    cases hbb : e.boundingBox with
    | error e' =>
      simp only [pureScan, hbb] at hp
      intro el hel b hb
      rcases List.mem_cons.mp hel with rfl | hel'
      · rw [hbb] at hb; exact absurd hb (by simp)
      · exact ih best hp el hel' b hb
    | ok ob =>
      cases ob with
      | none =>
        simp only [pureScan, hbb] at hp
        intro el hel b hb
        rcases List.mem_cons.mp hel with rfl | hel'
        · rw [hbb] at hb; simp at hb
        · exact ih best hp el hel' b hb
      | some b =>
        simp only [pureScan, hbb] at hp
        by_cases hlt : best < area b
        · rw [if_pos hlt] at hp
          obtain ⟨el', hel'⟩ := pureScan_acc_isSome (l := rest) e (area b)
          rw [hel'] at hp; exact absurd hp (by simp)
        · rw [if_neg hlt] at hp
          intro el hel b' hb'
          rcases List.mem_cons.mp hel with rfl | hel'
          · rw [hbb] at hb'
            obtain rfl : b = b' := by simpa using hb'
            exact not_lt.mp hlt
          · exact ih best hp el hel' b' hb'

theorem pureScan_fwd {l : List SvgElem} :
    ∀ acc best el, pureScan l acc best = some el →
      (acc = some el ∧ noBeat l best) ∨ Beats l best el := by
  induction l with
  | nil =>
    intro acc best el hp
    exact .inl ⟨hp, fun el' hel' => by simp at hel'⟩
  | cons e rest ih =>
    intro acc best el hp
    cases hbb : e.boundingBox with
    | error e' =>
      simp only [pureScan, hbb] at hp
      rcases ih acc best el hp with ⟨ha, hnb⟩ | hBeats
      · refine .inl ⟨ha, fun el' hel' b' hb' => ?_⟩
        rcases List.mem_cons.mp hel' with rfl | hel''
        · rw [hbb] at hb'; exact absurd hb' (by simp)
        · exact hnb el' hel'' b' hb'
      · obtain ⟨pre, b, post, heq, hbbel, hlt, hpre, hpost⟩ := hBeats
        refine .inr ⟨e :: pre, b, post, by simp [heq], hbbel, hlt, ?_, hpost⟩
        intro el' hel' b' hb'
        rcases List.mem_cons.mp hel' with rfl | hel''
        · rw [hbb] at hb'; exact absurd hb' (by simp)
        · exact hpre el' hel'' b' hb'
    | ok ob =>
      cases ob with
      | none =>
        simp only [pureScan, hbb] at hp
        rcases ih acc best el hp with ⟨ha, hnb⟩ | hBeats
        · refine .inl ⟨ha, fun el' hel' b' hb' => ?_⟩
          rcases List.mem_cons.mp hel' with rfl | hel''
          · rw [hbb] at hb'; simp at hb'
          · exact hnb el' hel'' b' hb'
        · obtain ⟨pre, b, post, heq, hbbel, hlt, hpre, hpost⟩ := hBeats
          refine .inr ⟨e :: pre, b, post, by simp [heq], hbbel, hlt, ?_, hpost⟩
          intro el' hel' b' hb'
          rcases List.mem_cons.mp hel' with rfl | hel''
          · rw [hbb] at hb'; simp at hb'
          · exact hpre el' hel'' b' hb'
      | some b =>
        simp only [pureScan, hbb] at hp
        by_cases hlt : best < area b
        · rw [if_pos hlt] at hp
          rcases ih (some e) (area b) el hp with ⟨ha, hnb⟩ | hBeats
          · obtain rfl : e = el := by simpa using ha
            refine .inr ⟨[], b, rest, rfl, hbb, hlt, by simp, ?_⟩
            exact fun el' hel' b' hb' => hnb el' hel' b' hb'
          · obtain ⟨pre, b'', post, heq, hbbel, hlt2, hpre, hpost⟩ := hBeats
            refine .inr ⟨e :: pre, b'', post, by simp [heq], hbbel,
              lt_trans hlt hlt2, ?_, hpost⟩
            intro el' hel' b' hb'
            rcases List.mem_cons.mp hel' with rfl | hel''
            · rw [hbb] at hb'
              obtain rfl : b = b' := by simpa using hb'
              exact hlt2
            · exact hpre el' hel'' b' hb'
        · rw [if_neg hlt] at hp
          rcases ih acc best el hp with ⟨ha, hnb⟩ | hBeats
          · refine .inl ⟨ha, fun el' hel' b' hb' => ?_⟩
            rcases List.mem_cons.mp hel' with rfl | hel''
            · rw [hbb] at hb'
              obtain rfl : b = b' := by simpa using hb'
              exact not_lt.mp hlt
            · exact hnb el' hel'' b' hb'
          · obtain ⟨pre, b'', post, heq, hbbel, hlt2, hpre, hpost⟩ := hBeats
            refine .inr ⟨e :: pre, b'', post, by simp [heq], hbbel, hlt2, ?_, hpost⟩
            intro el' hel' b' hb'
            rcases List.mem_cons.mp hel' with rfl | hel''
            · rw [hbb] at hb'
              obtain rfl : b = b' := by simpa using hb'
              exact lt_of_le_of_lt (not_lt.mp hlt) hlt2
            · exact hpre el' hel'' b' hb'

theorem scanLargest_error_propagates :
    ∀ (pre : List SvgElem) (bad : SvgElem) (rest : List SvgElem) (e : String)
      (acc : Option SvgElem) (best : ℤ),
      (∀ el ∈ pre, ∃ ob, el.boundingBox = .ok ob) → bad.boundingBox = .error e →
      scanLargest (pre ++ bad :: rest) acc best = .error e := by
  intro pre
  induction pre with
  | nil =>
    intro bad rest e acc best _ hbad
    simp only [List.nil_append, scanLargest, hbad]
  | cons p pre' ih =>
    intro bad rest e acc best hok hbad
    obtain ⟨ob, hob⟩ := hok p (by simp)
    have hpre' : ∀ el ∈ pre', ∃ ob, el.boundingBox = .ok ob :=
      fun el h' => hok el (by simp [h'])
    cases ob with
    | none =>
      simp only [List.cons_append, scanLargest, hob]
      exact ih bad rest e acc best hpre' hbad
    | some b =>
      simp only [List.cons_append, scanLargest, hob]
      by_cases hlt : best < area b
      · rw [if_pos hlt]; exact ih bad rest e _ _ hpre' hbad
      · rw [if_neg hlt]; exact ih bad rest e _ _ hpre' hbad

theorem processRow_url (i h : String) (oracle : String → PageOracle) (u : String) :
    (processRow i h oracle u).url = u := by
  unfold processRow
  cases hr : render_url u i h (oracle u) with
  | error e => rfl
  | ok r => simpa using render_url_ok_url hr

theorem processRow_cases (i h : String) (oracle : String → PageOracle) (u : String) :
    render_url u i h (oracle u) = .ok (processRow i h oracle u) ∨
      ∃ e, render_url u i h (oracle u) = .error e ∧
        processRow i h oracle u = syntheticRecord u e := by
  unfold processRow
  cases hr : render_url u i h (oracle u) with
  | error e => exact .inr ⟨e, rfl, rfl⟩
  | ok r => exact .inl rfl

theorem run_pipeline_core_urls (i h : String) (oracle : String → PageOracle)
    (processed : List String) :
    ∀ rows, ((run_pipeline_core i h oracle processed rows).1).map Record.url
      = qualifying processed rows := by
  intro rows
  induction rows with
  | nil => rfl
  | cons row rest ih =>
    simp only [run_pipeline_core, qualifying, List.map_cons, List.filter_cons]
    by_cases h1 : pyStrip row = ""
    · rw [if_pos h1]
      simpa [qualifying, h1] using ih
    · rw [if_neg h1]
      by_cases h2 : pyStrip row ∈ processed
      · rw [if_pos h2]
        simpa [qualifying, h1, h2] using ih
      · rw [if_neg h2]
        simpa [qualifying, h1, h2, processRow_url] using ih

theorem run_pipeline_core_mem {i h : String} {oracle : String → PageOracle}
    {processed : List String} :
    ∀ {rows : List String} {r : Record},
      r ∈ (run_pipeline_core i h oracle processed rows).1 →
      ∃ url, url ≠ "" ∧ url ∉ processed ∧ r = processRow i h oracle url := by
  intro rows
  induction rows with
  | nil => intro r hr; simp [run_pipeline_core] at hr
  | cons row rest ih =>
    intro r hr
    simp only [run_pipeline_core] at hr
    by_cases h1 : pyStrip row = ""
    · rw [if_pos h1] at hr; exact ih hr
    · rw [if_neg h1] at hr
      by_cases h2 : pyStrip row ∈ processed
      · rw [if_pos h2] at hr; exact ih hr
      · rw [if_neg h2] at hr
        rcases List.mem_cons.mp hr with rfl | hr'
        · exact ⟨pyStrip row, h1, h2, rfl⟩
        · exact ih hr'

theorem run_pipeline_core_skip_all {i h : String} {oracle : String → PageOracle}
    {processed : List String} :
    ∀ rows, (∀ row ∈ rows, pyStrip row = "" ∨ pyStrip row ∈ processed) →
      run_pipeline_core i h oracle processed rows = ([], []) := by
  intro rows
  induction rows with
  | nil => intro _; rfl
  | cons row rest ih =>
    intro hall
    have hrest : ∀ row' ∈ rest, pyStrip row' = "" ∨ pyStrip row' ∈ processed :=
      fun row' h' => hall row' (by simp [h'])
    simp only [run_pipeline_core]
    rcases hall row (by simp) with h1 | h2
    · rw [if_pos h1]; exact ih hrest
    · by_cases h1 : pyStrip row = ""
      · rw [if_pos h1]; exact ih hrest
      · rw [if_neg h1, if_pos h2]; exact ih hrest

/-- A page on which every collaborator operation succeeds and whose DOM has
no svg element: used to instantiate theorems on concrete inputs. -/
def plainPage : PageOracle := ⟨.ok (), .ok (), .ok (), [], .ok ()⟩

/-- An oracle giving `plainPage` behaviour to every URL. -/
def plainOracle : String → PageOracle := fun _ => plainPage

/-- An svg element with a 10×10 box (area 100) and no label data. -/
def elSmall : SvgElem := ⟨.ok (some ⟨10, 10⟩), .ok none, .ok none, .ok none, .ok none, .ok ()⟩

/-- An svg element with a 10×25 box (area 250) and no label data. -/
def elBig : SvgElem := ⟨.ok (some ⟨10, 25⟩), .ok none, .ok none, .ok none, .ok none, .ok ()⟩

/-- An svg element whose bounding-box query raises (a stale reference). -/
def elStale : SvgElem := ⟨.error "stale", .ok none, .ok none, .ok none, .ok none, .ok ()⟩

/-- Claim C2: when every non-blank input URL already appears as the url of
some record of the existing ledger — whatever that record's status, the
`status="error"` ones included — `run_pipeline` invokes the Capture
Engine on no URL and appends no record, so a re-run over a completed
ledger is idempotent. -/
theorem run_pipeline_idempotent_on_processed
    (rows : List String) (prior : List Record) (i h : String)
    (oracle : String → PageOracle)
    (hall : ∀ row ∈ rows, pyStrip row = "" ∨ pyStrip row ∈ prior.map Record.url) :
    run_pipeline rows prior i h oracle = (prior, []) := by
  have hz : run_pipeline rows prior i h oracle
      = (prior ++ (run_pipeline_core i h oracle (prior.map Record.url) rows).1,
         (run_pipeline_core i h oracle (prior.map Record.url) rows).2) := rfl
  rw [hz, run_pipeline_core_skip_all rows hall]
  simp

theorem run_pipeline_idempotent_witness :
    run_pipeline ["u", " ", "v"]
      [⟨"u", "error", "goto failed: x", false, false, "", "", ""⟩,
       ⟨"v", "ok", "", false, false, "", "", ""⟩] "i" "h" plainOracle
    = ([⟨"u", "error", "goto failed: x", false, false, "", "", ""⟩,
        ⟨"v", "ok", "", false, false, "", "", ""⟩], []) :=
  run_pipeline_idempotent_on_processed ["u", " ", "v"]
    [⟨"u", "error", "goto failed: x", false, false, "", "", ""⟩,
     ⟨"v", "ok", "", false, false, "", "", ""⟩] "i" "h" plainOracle (by decide)

/-- Claim C1 counterexample: with an empty prior ledger and the same URL
twice in one run's input, `run_pipeline` appends two records with the same
url — `processed_urls` is built once from the loaded ledger and never
extended during the run, so the second occurrence is not skipped. -/
theorem run_pipeline_duplicate_url_counterexample :
    ((run_pipeline ["u", "u"] [] "i" "h" plainOracle).1).map Record.url = ["u", "u"] ∧
    ¬ (((run_pipeline ["u", "u"] [] "i" "h" plainOracle).1).map Record.url).Pairwise (· ≠ ·) := by
  constructor
  · decide
  · decide

/-- Claim C1 (amended): url uniqueness of the persisted ledger holds
provided the prior ledger's urls are pairwise distinct AND no URL occurs
twice among the stripped non-blank input cells that are not already
recorded; a duplicate fresh URL in one run's input defeats it. -/
theorem run_pipeline_url_unique_of_nodup_input
    (rows : List String) (prior : List Record) (i h : String)
    (oracle : String → PageOracle)
    (hprior : (prior.map Record.url).Pairwise (· ≠ ·))
    (hnew : (qualifying (prior.map Record.url) rows).Pairwise (· ≠ ·)) :
    (((run_pipeline rows prior i h oracle).1).map Record.url).Pairwise (· ≠ ·) := by
  unfold run_pipeline
  simp only [List.map_append]
  rw [List.pairwise_append]
  refine ⟨hprior, by rw [run_pipeline_core_urls]; exact hnew, ?_⟩
  intro a ha b hb
  rw [run_pipeline_core_urls] at hb
  unfold qualifying at hb
  obtain ⟨-, hbq⟩ := List.mem_filter.mp hb
  simp only [Bool.and_eq_true, decide_eq_true_eq] at hbq
  exact fun hEq => hbq.2 (hEq ▸ ha)

theorem run_pipeline_url_unique_witness :
    (((run_pipeline ["u", "v", ""] [⟨"v", "ok", "", false, false, "", "", ""⟩]
        "i" "h" plainOracle).1).map Record.url).Pairwise (· ≠ ·) :=
  run_pipeline_url_unique_of_nodup_input ["u", "v", ""]
    [⟨"v", "ok", "", false, false, "", "", ""⟩] "i" "h" plainOracle
    (by decide) (by decide)

/-- Claim C9's own description of `slugify`, formalised for comparison:
strip one LEADING scheme only, replace every character outside the ASCII
class `[A-Za-z0-9_-]` by `_`, truncate to 80. -/
def stripLeadingScheme : List Char → List Char
  | 'h' :: 't' :: 't' :: 'p' :: 's' :: ':' :: '/' :: '/' :: rest => rest
  | 'h' :: 't' :: 't' :: 'p' :: ':' :: '/' :: '/' :: rest => rest
  | l => l

/-- Membership in the ASCII class `[A-Za-z0-9_-]` of claim C9. -/
def asciiSlugChar (c : Char) : Bool := c.isAlphanum || c = '_' || c = '-'

/-- The slug function claim C9 describes (to be compared with `slugify`). -/
def slugify_claimed (url : String) : String :=
  ⟨((stripLeadingScheme url.data).map
      (fun c => if asciiSlugChar c then c else '_')).take 80⟩

/-- Claim C9 counterexample: `slugify` keeps the Unicode letter `é`, so a
slug is not confined to `[A-Za-z0-9_-]` (Python's `\w` is Unicode-aware);
and it deletes `http://` anywhere in the URL, not only a leading scheme —
on both inputs it differs from the function the claim describes. -/
theorem slugify_counterexample :
    slugify "café.com" = "café_com" ∧
    'é' ∈ (slugify "café.com").data ∧ asciiSlugChar 'é' = false ∧
    slugify "x.com?a=http://y" = "x_com_a_y" ∧
    slugify_claimed "x.com?a=http://y" = "x_com_a_http___y" ∧
    slugify_claimed "café.com" = "caf__com" :=
  ⟨rfl, by decide, by decide, rfl, rfl, rfl⟩

/-- Claim C9 (amended): `slugify` is a pure function (hence deterministic
per URL), deletes every occurrence of `http://` or `https://`, truncates
to at most 80 characters, and every output character is a Python word
character (Unicode letters, digits, underscore) or `-` — not the ASCII
class `[A-Za-z0-9_-]` the claim states. -/
theorem slugify_charset_and_length (url : String) :
    (slugify url).length ≤ 80 ∧
    ∀ c ∈ (slugify url).data, pyWordChar c = true ∨ c = '-' := by
  constructor
  · have hlen : (slugify url).length
        = (((stripSchemes url.data).map
            (fun c => if pyWordChar c || c = '-' then c else '_')).take 80).length := rfl
    rw [hlen, List.length_take]
    exact min_le_left _ _
  · intro c hc
    have hc2 : c ∈ ((stripSchemes url.data).map
        (fun c => if pyWordChar c || c = '-' then c else '_')).take 80 := hc
    have hc3 := List.take_subset _ _ hc2
    obtain ⟨c', _, hfc⟩ := List.mem_map.mp hc3
    by_cases hw : pyWordChar c' || c' = '-'
    · rw [if_pos hw] at hfc
      subst hfc
      rcases (by simpa using hw : pyWordChar c' = true ∨ c' = '-') with hw' | hw'
      · exact .inl hw'
      · exact .inr hw' 
    · rw [if_neg hw] at hfc
      subst hfc
      exact .inl (by decide)

theorem fullpage_ne_chart (i slug : String) :
    i ++ "/" ++ slug ++ "_fullpage.png" ≠ i ++ "/" ++ slug ++ "_chart.png" := by
  intro hEq
  have h2 := congrArg String.length hEq
  simp only [String.length_append] at h2
  have h3 : ("_fullpage.png" : String).length = 13 := by decide
  have h4 : ("_chart.png" : String).length = 10 := by decide
  omega

theorem empty_ne_chart (i slug : String) :
    ("" : String) ≠ i ++ "/" ++ slug ++ "_chart.png" := by
  intro hEq
  have h2 := congrArg String.length hEq
  simp only [String.length_append] at h2
  have h3 : ("_chart.png" : String).length = 10 := by decide
  have h4 : ("" : String).length = 0 := by decide
  omega

theorem render_after_nav_fields {u i h : String} {page : PageOracle} {r : Record}
    (hr : render_after_nav u i h page = .ok r) :
    r.has_svg = decide (0 < page.svgs.length) ∧
    (scanLargest page.svgs none 0 = .ok none →
      r.image_path ≠ i ++ "/" ++ slugify u ++ "_chart.png" ∧
      (page.fullpageShot = .ok () → r.image_path = i ++ "/" ++ slugify u ++ "_fullpage.png")) := by
  unfold render_after_nav at hr
  by_cases hn : 0 < page.svgs.length
  · rw [if_pos hn] at hr
    cases hscan : scanLargest page.svgs none 0 with
    | error e => simp [hscan] at hr
    | ok ores =>
      cases ores with
      | some el =>
        simp only [hscan] at hr
        cases hss : el.scrollShot with
        | ok uu =>
          simp only [hss] at hr
          obtain rfl := Except.ok.inj hr
          refine ⟨by simp [hn], fun hnone => ?_⟩
          exact absurd hnone (by simp)
        | error e =>
          simp only [hss] at hr
          cases hfp : page.fullpageShot with
          | ok uu =>
            simp only [hfp] at hr
            obtain rfl := Except.ok.inj hr
            refine ⟨by simp [hn], fun hnone => ?_⟩
            exact absurd hnone (by simp)
          | error e2 => simp [hfp] at hr
      | none =>
        simp only [hscan] at hr
        cases hfp : page.fullpageShot with
        | ok uu =>
          simp only [hfp] at hr
          obtain rfl := Except.ok.inj hr
          exact ⟨by simp [hn], fun _ => ⟨fullpage_ne_chart i (slugify u), fun _ => rfl⟩⟩
        | error e2 => simp [hfp] at hr
  · rw [if_neg hn] at hr
    cases hfp : page.fullpageShot with
    | ok uu =>
      simp only [hfp] at hr
      obtain rfl := Except.ok.inj hr
      refine ⟨?_, fun _ => ⟨fullpage_ne_chart i (slugify u), fun _ => rfl⟩⟩
      cases hhs : page.htmlSave <;> simp [hhs, hn]
    | error e =>
      simp only [hfp] at hr
      obtain rfl := Except.ok.inj hr
      refine ⟨?_, fun _ => ⟨?_, fun hok => ?_⟩⟩
      · cases hhs : page.htmlSave <;> simp [hhs, hn]
      · cases hhs : page.htmlSave <;> simp only [hhs] <;>
          exact empty_ne_chart i (slugify u)
      · exact absurd hok (by simp)

/-- The html-failure component of the accumulated `error` field: empty on
a successful HTML write, the appended `" | html error: <e>"` detail after
a failed one. -/
def htmlErrPart (page : PageOracle) : String :=
  match page.htmlSave with
  | .ok _ => ""
  | .error e => " | html error: " ++ e

theorem render_after_nav_error_accum {u i h : String} {page : PageOracle} {r : Record}
    (hr : render_after_nav u i h page = .ok r) :
    (∀ e, page.htmlSave = .error e →
      r.html_path = "" ∧ ∃ rest, r.error = " | html error: " ++ e ++ rest) ∧
    (∀ el e2, scanLargest page.svgs none 0 = .ok (some el) →
      el.scrollShot = .error e2 →
      r.error = htmlErrPart page ++ " | svg screenshot error: " ++ e2) := by
  unfold render_after_nav at hr
  by_cases hn : 0 < page.svgs.length
  · rw [if_pos hn] at hr
    cases hscan : scanLargest page.svgs none 0 with
    | error e => simp [hscan] at hr
    | ok ores =>
      cases ores with
      | some el0 =>
        simp only [hscan] at hr
        cases hss : el0.scrollShot with
        | ok uu =>
          simp only [hss] at hr
          obtain rfl := Except.ok.inj hr
          constructor
          · intro e he
            exact ⟨by simp [he],
              ⟨"", by simp [he, String.empty_append, String.append_empty]⟩⟩
          · intro el e2 hsc2 hss2
            obtain rfl : el0 = el := by simpa using hsc2
            rw [hss] at hss2
            exact absurd hss2 (by simp)
        | error e0 =>
          simp only [hss] at hr
          cases hfp : page.fullpageShot with
          | ok uu =>
            simp only [hfp] at hr
            obtain rfl := Except.ok.inj hr
            constructor
            · intro e he
              refine ⟨by simp [he], ⟨" | svg screenshot error: " ++ e0, ?_⟩⟩
              simp [he, String.empty_append, String.append_assoc]
            · intro el e2 hsc2 hss2
              obtain rfl : el0 = el := by simpa using hsc2
              rw [hss] at hss2
              obtain rfl : e0 = e2 := by simpa using hss2
              cases hhs : page.htmlSave <;>
                simp [htmlErrPart, hhs, String.empty_append]
          | error e2 => simp [hfp] at hr
      | none =>
        simp only [hscan] at hr
        cases hfp : page.fullpageShot with
        | ok uu =>
          simp only [hfp] at hr
          obtain rfl := Except.ok.inj hr
          constructor
          · intro e he
            exact ⟨by simp [he],
              ⟨"", by simp [he, String.empty_append, String.append_empty]⟩⟩
          · intro el e2 hsc2 hss2
            exact absurd hsc2 (by simp)
        | error e2 => simp [hfp] at hr
  · have hsv : page.svgs = [] := by
      cases hl : page.svgs with
      | nil => rfl
      | cons a t => rw [hl] at hn; simp at hn
    rw [if_neg hn] at hr
    cases hfp : page.fullpageShot with
    | ok uu =>
      simp only [hfp] at hr
      obtain rfl := Except.ok.inj hr
      constructor
      · intro e he
        exact ⟨by simp [he],
          ⟨"", by simp [he, String.empty_append, String.append_empty]⟩⟩
      · intro el e2 hsc2 hss2
        rw [hsv] at hsc2
        exact absurd hsc2 (by simp [scanLargest])
    | error e0 =>
      simp only [hfp] at hr
      obtain rfl := Except.ok.inj hr
      constructor
      · intro e he
        refine ⟨by simp [he], ⟨" | fullpage screenshot error: " ++ e0, ?_⟩⟩
        simp [he, String.empty_append, String.append_assoc]
      · intro el e2 hsc2 hss2
        rw [hsv] at hsc2
        exact absurd hsc2 (by simp [scanLargest])

/-- Claim C6: a record returned by `render_url` carries `status="error"`
iff both navigation attempts raised (network-idle first, then the
DOM-content-loaded retry); the status is always "ok" or "error"; on
double navigation failure the record is exactly the `goto failed` record:
the message has the "goto failed" class and no capture field is set,
since no further step ran.  And after a successful navigation (a first
attempt that worked, or a failed first attempt with a successful retry)
the downstream failures only accumulate detail in the `error` field while
status stays "ok": a failed HTML write leaves `html_path` empty and puts
`" | html error: <e>"` in front of `error`'s remainder, and a failed
chart screenshot on the selected element appends
`" | svg screenshot error: <e>"` after the html component. -/
theorem render_url_status_error_iff_nav_failed
    (url i h : String) (page : PageOracle) (r : Record)
    (hr : render_url url i h page = .ok r) :
    (r.status = "error" ↔
      (∃ e1, page.gotoNetworkidle = .error e1) ∧
      (∃ e2, page.gotoDomcontent = .error e2)) ∧
    (r.status = "ok" ∨ r.status = "error") ∧
    (∀ e1 e2, page.gotoNetworkidle = .error e1 → page.gotoDomcontent = .error e2 →
      r = gotoFailRecord url e2) ∧
    (page.gotoNetworkidle = .ok () ∨ page.gotoDomcontent = .ok () →
      (∀ e, page.htmlSave = .error e →
        r.status = "ok" ∧ r.html_path = "" ∧
        ∃ rest, r.error = " | html error: " ++ e ++ rest) ∧
      (∀ el e2, scanLargest page.svgs none 0 = .ok (some el) →
        el.scrollShot = .error e2 →
        r.status = "ok" ∧
        r.error = htmlErrPart page ++ " | svg screenshot error: " ++ e2)) := by
  unfold render_url at hr
  cases hgn : page.gotoNetworkidle with
  | ok uu =>
    simp only [hgn] at hr
    have hok := render_after_nav_ok hr
    have hac := render_after_nav_error_accum hr
    refine ⟨⟨fun hs => ?_, fun hs => ?_⟩, .inl hok.1, fun e1 e2 he1 he2 => ?_,
      fun _ => ⟨fun e he => ⟨hok.1, (hac.1 e he).1, (hac.1 e he).2⟩,
        fun el e2 h1 h2 => ⟨hok.1, hac.2 el e2 h1 h2⟩⟩⟩
    · rw [hok.1] at hs; exact absurd hs (by decide)
    · obtain ⟨⟨e1, he1⟩, -⟩ := hs
      exact absurd he1 (by simp)
    · exact absurd he1 (by simp)
  | error e1' =>
    simp only [hgn] at hr
    cases hgd : page.gotoDomcontent with
    | ok uu =>
      simp only [hgd] at hr
      have hok := render_after_nav_ok hr
      have hac := render_after_nav_error_accum hr
      refine ⟨⟨fun hs => ?_, fun hs => ?_⟩, .inl hok.1, fun e1 e2 he1 he2 => ?_,
        fun _ => ⟨fun e he => ⟨hok.1, (hac.1 e he).1, (hac.1 e he).2⟩,
          fun el e2 h1 h2 => ⟨hok.1, hac.2 el e2 h1 h2⟩⟩⟩
      · rw [hok.1] at hs; exact absurd hs (by decide)
      · obtain ⟨-, e2, he2⟩ := hs
        exact absurd he2 (by simp)
      · exact absurd he2 (by simp)
    | error e2' =>
      simp only [hgd] at hr
      obtain rfl := Except.ok.inj hr
      refine ⟨⟨fun _ => ⟨⟨e1', rfl⟩, ⟨e2', rfl⟩⟩, fun _ => rfl⟩, .inr rfl,
        fun e1 e2 he1 he2 => ?_, fun hnav => ?_⟩
      · obtain rfl := Except.error.inj he2
        rfl
      · rcases hnav with hn | hn <;> exact absurd hn (by simp)

theorem render_url_status_error_witness :
    ({ url := "u", status := "ok",
       error := " | html error: disk | svg screenshot error: shot",
       has_svg := true, has_alt := false, alt_text := "",
       image_path := "i/u_fullpage.png", html_path := "" } : Record).status = "ok" ∧
    ({ url := "u", status := "ok",
       error := " | html error: disk | svg screenshot error: shot",
       has_svg := true, has_alt := false, alt_text := "",
       image_path := "i/u_fullpage.png", html_path := "" } : Record).error
      = htmlErrPart
          ⟨.error "net", .ok (), .error "disk",
            [⟨.ok (some ⟨2, 3⟩), .ok none, .ok none, .ok none, .ok none, .error "shot"⟩],
            .ok ()⟩
        ++ " | svg screenshot error: " ++ "shot" :=
  ((render_url_status_error_iff_nav_failed "u" "i" "h"
      ⟨.error "net", .ok (), .error "disk",
        [⟨.ok (some ⟨2, 3⟩), .ok none, .ok none, .ok none, .ok none, .error "shot"⟩],
        .ok ()⟩
      { url := "u", status := "ok",
        error := " | html error: disk | svg screenshot error: shot",
        has_svg := true, has_alt := false, alt_text := "",
        image_path := "i/u_fullpage.png", html_path := "" }
      rfl).2.2.2 (.inr rfl)).2
    ⟨.ok (some ⟨2, 3⟩), .ok none, .ok none, .ok none, .ok none, .error "shot"⟩
    "shot" rfl rfl

/-- Claim C7: for a record returned after a successful navigation,
`has_svg` is true iff the DOM held at least one svg element, independent
of whether one was selected; and when the scan selected no element —
no svg present, or none with a measurable box — the saved image path is
never the `_chart` variant, and equals the `_fullpage` variant whenever
the full-page screenshot succeeded. -/
theorem render_url_has_svg_and_fullpage
    (url i h : String) (page : PageOracle) (r : Record)
    (hr : render_url url i h page = .ok r)
    (hnav : page.gotoNetworkidle = .ok () ∨ page.gotoDomcontent = .ok ()) :
    (r.has_svg = true ↔ 0 < page.svgs.length) ∧
    (scanLargest page.svgs none 0 = .ok none →
      r.image_path ≠ i ++ "/" ++ slugify url ++ "_chart.png" ∧
      (page.fullpageShot = .ok () →
        r.image_path = i ++ "/" ++ slugify url ++ "_fullpage.png")) := by
  have hr' : render_after_nav url i h page = .ok r := by
    unfold render_url at hr
    cases hgn : page.gotoNetworkidle with
    | ok uu => simpa only [hgn] using hr
    | error e1 =>
      simp only [hgn] at hr
      cases hgd : page.gotoDomcontent with
      | ok uu => simpa only [hgd] using hr
      | error e2 =>
        rcases hnav with hn | hn
        · rw [hgn] at hn; exact absurd hn (by simp)
        · rw [hgd] at hn; exact absurd hn (by simp)
  have hfields := render_after_nav_fields hr'
  exact ⟨by simp [hfields.1], hfields.2⟩

theorem render_url_has_svg_witness :
    ({ url := "u", status := "ok", error := "", has_svg := false,
       has_alt := false, alt_text := "", image_path := "i/u_fullpage.png",
       html_path := "h/u.html" } : Record).image_path
      = "i" ++ "/" ++ slugify "u" ++ "_fullpage.png" :=
  ((render_url_has_svg_and_fullpage "u" "i" "h" plainPage
      { url := "u", status := "ok", error := "", has_svg := false,
        has_alt := false, alt_text := "", image_path := "i/u_fullpage.png",
        html_path := "h/u.html" } rfl (.inl rfl)).2 rfl).2 rfl

/-- Claim C3 counterexample: one svg whose element screenshot raises while
the fallback full-page screenshot raises too.  The fallback call (line
162 of the source) sits outside any `try`, so the exception escapes
`render_url` itself instead of becoming a record; it is the batch driver
one layer up that converts it into the synthetic error record. -/
theorem render_url_double_screenshot_failure_raises :
    render_url "u" "i" "h"
      ⟨.ok (), .ok (), .ok (),
        [⟨.ok (some ⟨1, 1⟩), .ok none, .ok none, .ok none, .ok none, .error "shot"⟩],
        .error "boom"⟩ = .error "boom" ∧
    processRow "i" "h"
      (fun _ => ⟨.ok (), .ok (), .ok (),
        [⟨.ok (some ⟨1, 1⟩), .ok none, .ok none, .ok none, .ok none, .error "shot"⟩],
        .error "boom"⟩) "u" = syntheticRecord "u" "boom" :=
  ⟨rfl, rfl⟩

theorem render_after_nav_total (url i h : String) (page : PageOracle)
    (hbb : ∀ el ∈ page.svgs, ∃ ob, el.boundingBox = .ok ob)
    (hfp : page.fullpageShot = .ok ()) :
    ∃ r, render_after_nav url i h page = .ok r := by
  unfold render_after_nav
  by_cases hn : 0 < page.svgs.length
  · rw [if_pos hn, scanLargest_eq_pure hbb none 0]
    cases hps : pureScan page.svgs none 0 with
    | none => simp only [hfp]; exact ⟨_, rfl⟩
    | some el =>
      cases hss : el.scrollShot with
      | ok uu => simp only [hss]; exact ⟨_, rfl⟩
      | error e => simp only [hss, hfp]; exact ⟨_, rfl⟩
  · rw [if_neg hn]
    simp only [hfp]
    exact ⟨_, rfl⟩

/-- Claim C3 (amended): `render_url` converts navigation, HTML-write and
element-screenshot failures into record fields and returns a record,
PROVIDED no bounding-box query raises and the full-page screenshot
succeeds; when the element screenshot fails and the fallback full-page
screenshot also fails, the exception escapes `render_url` (see the
counterexample) and only the batch driver converts it to a record. -/
theorem render_url_total_of_fullpage_ok (url i h : String) (page : PageOracle)
    (hbb : ∀ el ∈ page.svgs, ∃ ob, el.boundingBox = .ok ob)
    (hfp : page.fullpageShot = .ok ()) :
    ∃ r, render_url url i h page = .ok r := by
  unfold render_url
  cases hgn : page.gotoNetworkidle with
  | ok uu => exact render_after_nav_total url i h page hbb hfp
  | error e1 =>
    cases hgd : page.gotoDomcontent with
    | ok uu => exact render_after_nav_total url i h page hbb hfp
    | error e2 => exact ⟨gotoFailRecord url e2, rfl⟩

theorem render_url_total_witness :
    (render_url "u" "i" "h"
      ⟨.error "net", .ok (), .error "disk",
        [⟨.ok (some ⟨2, 3⟩), .ok none, .ok none, .ok none, .ok none, .error "shot"⟩],
        .ok ()⟩).isOk = true := by
  obtain ⟨r, hr⟩ := render_url_total_of_fullpage_ok "u" "i" "h"
    ⟨.error "net", .ok (), .error "disk",
      [⟨.ok (some ⟨2, 3⟩), .ok none, .ok none, .ok none, .ok none, .error "shot"⟩],
      .ok ()⟩
    (by intro el hel
        rcases List.mem_cons.mp hel with rfl | hel2
        · exact ⟨some ⟨2, 3⟩, rfl⟩
        · simp at hel2)
    rfl
  rw [hr]; rfl

/-- Claim C10: every `status="error"` record appended during a run —
whether the goto-failure record returned by `render_url` or the synthetic
record built by `run_pipeline` from an escaped exception — carries no
artifacts: both flags are false and the label, image and html fields are
all empty. -/
theorem error_records_carry_no_artifacts
    (rows : List String) (prior : List Record) (i h : String)
    (oracle : String → PageOracle) (r : Record)
    (hr : r ∈ ((run_pipeline rows prior i h oracle).1).drop prior.length)
    (hs : r.status = "error") :
    r.has_svg = false ∧ r.has_alt = false ∧ r.alt_text = "" ∧
    r.image_path = "" ∧ r.html_path = "" := by
  have hsplit : (run_pipeline rows prior i h oracle).1
      = prior ++ (run_pipeline_core i h oracle (prior.map Record.url) rows).1 := rfl
  rw [hsplit, List.drop_left] at hr
  obtain ⟨u, -, -, rfl⟩ := run_pipeline_core_mem hr
  rcases processRow_cases i h oracle u with hok | ⟨e, -, hsyn⟩
  · obtain ⟨e1, e2, -, -, hrec⟩ := render_url_error_shape hok hs
    rw [hrec]
    exact ⟨rfl, rfl, rfl, rfl, rfl⟩
  · rw [hsyn]
    exact ⟨rfl, rfl, rfl, rfl, rfl⟩

theorem error_records_witness :
    (gotoFailRecord "u" "nope").has_svg = false ∧
    (gotoFailRecord "u" "nope").has_alt = false ∧
    (gotoFailRecord "u" "nope").alt_text = "" ∧
    (gotoFailRecord "u" "nope").image_path = "" ∧
    (gotoFailRecord "u" "nope").html_path = "" :=
  error_records_carry_no_artifacts ["u"] [] "i" "h"
    (fun _ => ⟨.error "down", .error "nope", .ok (), [], .ok ()⟩)
    (gotoFailRecord "u" "nope") (by decide) rfl

/-- Claim C4 counterexample: the aria-label lookup raises while the title
child holds the non-blank text "The Title".  The chain does NOT proceed to
the title step: the single `except` around the whole chain returns "". -/
theorem extract_alt_aria_failure_counterexample :
    extract_alt_from_svg
      ⟨.ok none, .error "aria boom", .ok (some "The Title"), .ok none, .ok none, .ok ()⟩
      = "" ∧
    pyStrip "The Title" = "The Title" ∧ ("The Title" : String) ≠ "" :=
  ⟨rfl, rfl, by decide⟩

/-- Claim C4 (amended): the four steps are NOT attempted independently —
one `try` wraps the whole chain, so a raising lookup at any step aborts
the chain and the handler returns "" whatever the later steps hold; the
extractor itself never raises (it is a total function into strings). -/
theorem extract_alt_failure_aborts_chain (el : SvgElem) :
    (∀ e, el.ariaLabel = .error e → extract_alt_from_svg el = "") ∧
    (∀ a e, el.ariaLabel = .ok a → pyStrip (a.getD "") = "" →
      el.titleChild = .error e → extract_alt_from_svg el = "") ∧
    (∀ a t e, el.ariaLabel = .ok a → pyStrip (a.getD "") = "" →
      el.titleChild = .ok t → (∀ s, t = some s → pyStrip s = "") →
      el.descChild = .error e → extract_alt_from_svg el = "") ∧
    (∀ a t d e, el.ariaLabel = .ok a → pyStrip (a.getD "") = "" →
      el.titleChild = .ok t → (∀ s, t = some s → pyStrip s = "") →
      el.descChild = .ok d → (∀ s, d = some s → pyStrip s = "") →
      el.altAttr = .error e → extract_alt_from_svg el = "") := by
  refine ⟨fun e he => ?_, fun a e ha ha2 he => ?_, fun a t e ha ha2 ht ht2 he => ?_,
    fun a t d e ha ha2 ht ht2 hd hd2 he => ?_⟩
  · simp [extract_alt_from_svg, extract_core, he]
  · simp [extract_alt_from_svg, extract_core, ha, ha2, he]
  · cases t with
    | none => simp [extract_alt_from_svg, extract_core, extract_desc, ha, ha2, ht, he]
    | some s =>
      have hs := ht2 s rfl
      simp [extract_alt_from_svg, extract_core, extract_desc, ha, ha2, ht, hs, he]
  · have hdesc : extract_desc el = .error e := by
      cases d with
      | none => simp [extract_desc, hd, extract_alt_attr, he]
      | some s =>
        have hs := hd2 s rfl
        simp [extract_desc, hd, hs, extract_alt_attr, he]
    cases t with
    | none => simp [extract_alt_from_svg, extract_core, ha, ha2, ht, hdesc]
    | some s =>
      have hs := ht2 s rfl
      simp [extract_alt_from_svg, extract_core, ha, ha2, ht, hs, hdesc]

theorem extract_alt_failure_witness :
    extract_alt_from_svg
      ⟨.ok none, .error "boom", .ok (some "T"), .ok none, .ok none, .ok ()⟩ = "" :=
  (extract_alt_failure_aborts_chain
    ⟨.ok none, .error "boom", .ok (some "T"), .ok none, .ok none, .ok ()⟩).1 "boom" rfl

theorem pyStrip_empty : pyStrip "" = "" := rfl

/-- Claim C8: when no lookup raises, the extractor returns the first
non-empty stripped value of the fixed chain aria-label, title text, desc
text, alt attribute — and "" when all four are blank, which is a valid
outcome; in particular an element whose only datum is a non-blank desc
child yields the desc's stripped text, and the `has_label` flag computed
from it (`bool(alt)` in the source) is true. -/
theorem extract_alt_priority_chain (el : SvgElem) (a t d al : Option String)
    (ha : el.ariaLabel = .ok a) (ht : el.titleChild = .ok t)
    (hd : el.descChild = .ok d) (hal : el.altAttr = .ok al) :
    extract_alt_from_svg el =
      chainFirst [pyStrip (a.getD ""), pyStrip (t.getD ""),
        pyStrip (d.getD ""), pyStrip (al.getD "")] ∧
    (pyStrip (a.getD "") = "" → pyStrip (t.getD "") = "" →
      pyStrip (d.getD "") ≠ "" →
      extract_alt_from_svg el = pyStrip (d.getD "") ∧
      decide (extract_alt_from_svg el ≠ "") = true) := by
  have hmain : extract_alt_from_svg el =
      chainFirst [pyStrip (a.getD ""), pyStrip (t.getD ""),
        pyStrip (d.getD ""), pyStrip (al.getD "")] := by
    by_cases hA : pyStrip (a.getD "") = ""
    · have htv : pyStrip (t.getD "") = pyStrip (t.getD "") := rfl
      by_cases hT : pyStrip (t.getD "") = ""
      · by_cases hD : pyStrip (d.getD "") = ""
        · cases t with
          | none =>
            cases d with
            | none =>
              by_cases hAL : pyStrip (al.getD "") = "" <;>
                simp [extract_alt_from_svg, extract_core, extract_desc,
                  extract_alt_attr, chainFirst, ha, ht, hd, hal, hA, hT, hD,
                  hAL, pyStrip_empty]
            | some ds =>
              have hds : pyStrip ds = "" := by simpa using hD
              by_cases hAL : pyStrip (al.getD "") = "" <;>
                simp [extract_alt_from_svg, extract_core, extract_desc,
                  extract_alt_attr, chainFirst, ha, ht, hd, hal, hA, hT, hds,
                  hAL, pyStrip_empty]
          | some ts =>
            have hts : pyStrip ts = "" := by simpa using hT
            cases d with
            | none =>
              by_cases hAL : pyStrip (al.getD "") = "" <;>
                simp [extract_alt_from_svg, extract_core, extract_desc,
                  extract_alt_attr, chainFirst, ha, ht, hd, hal, hA, hts, hD,
                  hAL, pyStrip_empty]
            | some ds =>
              have hds : pyStrip ds = "" := by simpa using hD
              by_cases hAL : pyStrip (al.getD "") = "" <;>
                simp [extract_alt_from_svg, extract_core, extract_desc,
                  extract_alt_attr, chainFirst, ha, ht, hd, hal, hA, hts, hds,
                  hAL, pyStrip_empty]
        · cases t with
          | none =>
            cases d with
            | none => simp [pyStrip_empty] at hD
            | some ds =>
              have hds : pyStrip ds ≠ "" := by simpa using hD
              simp [extract_alt_from_svg, extract_core, extract_desc,
                chainFirst, ha, ht, hd, hA, hT, hds, pyStrip_empty]
          | some ts =>
            have hts : pyStrip ts = "" := by simpa using hT
            cases d with
            | none => simp [pyStrip_empty] at hD
            | some ds =>
              have hds : pyStrip ds ≠ "" := by simpa using hD
              simp [extract_alt_from_svg, extract_core, extract_desc,
                chainFirst, ha, ht, hd, hA, hts, hds, pyStrip_empty]
      · cases t with
        | none => simp [pyStrip_empty] at hT
        | some ts =>
          have hts : pyStrip ts ≠ "" := by simpa using hT
          simp [extract_alt_from_svg, extract_core, chainFirst, ha, ht, hA, hts,
            pyStrip_empty]
    · simp [extract_alt_from_svg, extract_core, chainFirst, ha, hA]
  refine ⟨hmain, fun h1 h2 h3 => ?_⟩
  rw [hmain]
  constructor
  · simp [chainFirst, h1, h2, h3]
  · simp [chainFirst, h1, h2, h3]

theorem extract_alt_priority_witness :
    extract_alt_from_svg
      ⟨.ok none, .ok none, .ok none, .ok (some " D "), .ok none, .ok ()⟩ = "D" :=
  (((extract_alt_priority_chain
      ⟨.ok none, .ok none, .ok none, .ok (some " D "), .ok none, .ok ()⟩
      none none (some " D ") none rfl rfl rfl rfl).2 rfl rfl (by decide)).1).trans rfl

/-- Claim C5 counterexample: the first element's bounding-box query raises,
and the whole scan aborts with that exception — even though the second
element holds a measurable box of area 250 that the claim says should be
selected; the failure is not treated as "no box" for that element. -/
theorem scanLargest_query_failure_counterexample :
    scanLargest [elStale, elBig] none 0 = .error "stale" ∧
    elBig.boundingBox = .ok (some ⟨10, 25⟩) ∧ area ⟨10, 25⟩ = 250 :=
  ⟨rfl, rfl, rfl⟩

/-- Claim C5 (amended): when no bounding-box query raises, the scan walks
the document-order list and returns: "none" exactly when no element owns
a box of area above the initial `largest_area = 0` (no element present, or
none with a measurable box — zero-size counts as unmeasurable); otherwise
the element owning a positive-area box strictly larger than every earlier
boxed area (document-order priority on ties) and at least every later one.
But a bounding-box query failure on one element is NOT treated as "no box"
for that element: the exception aborts the whole scan and propagates. -/
theorem scanLargest_selects_strict_max (l : List SvgElem) :
    ((∀ el ∈ l, ∃ ob, el.boundingBox = .ok ob) →
      scanLargest l none 0 = .ok (pureScan l none 0) ∧
      (pureScan l none 0 = none ↔ noBeat l 0) ∧
      (∀ el, pureScan l none 0 = some el → Beats l 0 el)) ∧
    (∀ pre bad rest e, l = pre ++ bad :: rest →
      (∀ el ∈ pre, ∃ ob, el.boundingBox = .ok ob) →
      bad.boundingBox = .error e → scanLargest l none 0 = .error e) := by
  constructor
  · intro hok
    refine ⟨scanLargest_eq_pure hok none 0,
      ⟨noBeat_of_pureScan_none 0, pureScan_none_of_noBeat 0⟩, fun el hel => ?_⟩
    rcases pureScan_fwd none 0 el hel with ⟨hacc, -⟩ | hB
    · exact absurd hacc (by simp)
    · exact hB
  · intro pre bad rest e heq hpre hbad
    rw [heq]
    exact scanLargest_error_propagates pre bad rest e none 0 hpre hbad

theorem scanLargest_selects_witness :
    Beats [elSmall, elBig] 0 elBig :=
  (((scanLargest_selects_strict_max [elSmall, elBig]).1
    (by intro el hel
        rcases List.mem_cons.mp hel with rfl | hel2
        · exact ⟨some ⟨10, 10⟩, rfl⟩
        · rcases List.mem_cons.mp hel2 with rfl | hel3
          · exact ⟨some ⟨10, 25⟩, rfl⟩
          · simp at hel3)).2.2) elBig (by decide)

end ChartsDB
